import Mathlib

/-
Verification development for the tv-streamer repository.

The embedding below follows app_files/app.py and app_files/logging_setup.py.
External effects (the ffprobe/ffmpeg subprocesses, the GCS uploads) are
parametrised by an explicit world record, and each run of the capture
pipeline is summarised by an outcome record that carries the observable
effects: subprocess invocations (with their timeouts), uploaded object
names, scratch-directory lifecycle, logged ffmpeg errors, and the returned
value or the propagated exception.
-/

namespace TvStreamer

/-- Code-point lexicographic comparison on character lists, matching how
Python's `sorted` orders strings. -/
def charListLe : List Char → List Char → Bool
  | [], _ => true
  | _ :: _, [] => false
  | a :: as, b :: bs => if a < b then true else if b < a then false else charListLe as bs

/-- Lexicographic order on strings via their character data. -/
def strLe (a b : String) : Bool := charListLe a.data b.data

/-- Insert a string into a (sorted) list, keeping the order of `strLe`. -/
def insertSorted (x : String) : List String → List String
  | [] => [x]
  | y :: ys => if strLe x y then x :: y :: ys else y :: insertSorted x ys

/-- Insertion sort on strings; embeds Python's `sorted` as used on
`os.listdir` results and blob listings in app.py. -/
def sortStr : List String → List String
  | [] => []
  | x :: xs => insertSorted x (sortStr xs)

/-- Embeds Python's `str.endswith`: suffix comparison on the character
data (kernel-reducible, unlike `String.endsWith`). -/
def strEndsWith (s t : String) : Bool :=
  decide (t.data = List.drop (s.data.length - t.data.length) s.data)

/-- Embeds Python's slice `text[:n]`: the first `n` characters
(kernel-reducible, unlike `String.take`). -/
def strTake (s : String) (n : Nat) : String :=
  String.mk (s.data.take n)

/-- One subprocess invocation as observable effect: the argument vector and
the timeout passed to the `subprocess` call (`none` when no timeout
keyword is given). -/
structure SubprocessCall where
  argv : List String
  timeoutSeconds : Option Nat
deriving Repr, DecidableEq

/-- Capture tunables of app.py (the module-level environment-derived
constants DEFAULT_CAPTURE_SECONDS, DEFAULT_FPS, DEFAULT_AUDIO_SEG,
DEFAULT_AUDIO_BR, DEFAULT_AUDIO_CODEC, DEFAULT_FRAME_SCALE, HLS_REFERER,
HLS_USER_AGENT). -/
structure Config where
  captureSeconds : Nat
  fps : Nat
  audioSeg : Nat
  audioBitrate : String
  audioCodec : String
  frameScale : String
  hlsReferer : String
  hlsUserAgent : String
deriving Repr, DecidableEq

/-- The default configuration: the fallback values of the `os.getenv` calls
at the top of app.py. -/
def cfgDefault : Config :=
  { captureSeconds := 60, fps := 1, audioSeg := 10, audioBitrate := "64k",
    audioCodec := "libopus", frameScale := "640:-2", hlsReferer := "",
    hlsUserAgent := "" }

/-- External world for one capture cycle: outcome of the ffprobe call
(`Except.error` when `subprocess.check_output` raises, `Except.ok b` when it
returns JSON whose `streams` field is non-empty iff `b`), the ffmpeg return
code and combined output, the files ffmpeg left in the frames and audio
scratch directories, and which uploads succeed. -/
structure CaptureWorld where
  probeResult : Except String Bool
  ffmpegRc : Int
  ffmpegOut : String
  framesProduced : List String
  audioProduced : List String
  uploadOk : String → Bool

/-- Observable outcome of `capture_stream`: subprocess calls made, object
names uploaded (in order), whether the scratch directory was created and
whether `shutil.rmtree` ran, the FFMPEG_ERROR log entry if any, and the
returned pair `(up_frames, up_audio)` or the propagated exception. -/
structure CaptureOutcome where
  probeCalls : List SubprocessCall
  ffmpegCalls : List SubprocessCall
  uploads : List String
  tmpCreated : Bool
  tmpRemoved : Bool
  ffmpegErrorLog : Option (Int × String)
  result : Except String (Nat × Nat)

/-- Embeds `_header_args_for_hls` of app.py: builds the optional
`-headers` argument from the HLS_REFERER / HLS_USER_AGENT settings. -/
def headerArgsForHls (cfg : Config) : List String :=
  let headerLines :=
    (if cfg.hlsReferer = "" then [] else ["Referer: " ++ cfg.hlsReferer]) ++
    (if cfg.hlsUserAgent = "" then [] else ["User-Agent: " ++ cfg.hlsUserAgent])
  let blob :=
    if headerLines = [] then "" else String.intercalate "\\r\\n" headerLines ++ "\\r\\n"
  if blob = "" then [] else ["-headers", blob]

/-- Embeds the command list built by `_ffprobe_has_audio` of app.py. -/
def ffprobeCmd (headerArgs : List String) (url : String) : List String :=
  ["ffprobe", "-v", "error"] ++ headerArgs ++
    ["-select_streams", "a", "-show_streams", "-of", "json", url]

/-- Embeds the ffmpeg command list built by `capture_stream` of app.py:
the common input part, the video output part (fixed `-start_number 1`,
`frame_%04d.webp` pattern), and, when audio was detected, the audio
segmenting part with explicit `-map 0:a:0`. -/
def ffmpegCmd (cfg : Config) (headerArgs : List String) (url : String)
    (capSecs : Nat) (framesDir audioDir : String) (hasAudio : Bool) : List String :=
  let common :=
    ["ffmpeg", "-nostdin", "-hide_banner", "-loglevel", "warning"] ++ headerArgs ++
      ["-i", url, "-t", toString capSecs]
  let vidPart :=
    ["-map", "0:v:0", "-vf", "fps=" ++ toString cfg.fps ++ ",scale=" ++ cfg.frameScale,
     "-start_number", "1", "-f", "image2", framesDir ++ "/frame_%04d.webp"]
  let audPart :=
    ["-map", "0:a:0", "-c:a", cfg.audioCodec, "-b:a", cfg.audioBitrate,
     "-ar", "48000", "-ac", "1", "-f", "segment", "-segment_time",
     toString cfg.audioSeg, "-reset_timestamps", "1", audioDir ++ "/chunk_%03d.ogg"]
  if hasAudio then common ++ vidPart ++ audPart else common ++ vidPart

/-- Embeds the upload loops of `capture_stream`: upload each path in order;
a failing upload raises, so later paths are not attempted. Returns the
successfully uploaded paths and whether the loop completed without
raising. -/
def uploadMany (ok : String → Bool) : List String → List String × Bool
  | [] => ([], true)
  | p :: ps =>
    if ok p then
      let r := uploadMany ok ps
      (p :: r.1, r.2)
    else ([], false)

/-- Embeds the `has_audio` value computed by `_ffprobe_has_audio` of
app.py: any exception from `subprocess.check_output` is caught and the
function returns `False`; otherwise it returns whether the parsed JSON has
a non-empty `streams` list. -/
def hasAudioOf (w : CaptureWorld) : Bool :=
  match w.probeResult with
  | Except.ok b => b
  | Except.error _ => false

/-- Embeds `capture_stream` of app.py over a `CaptureWorld`: probe for
audio (probe failure means no audio), create the scratch directories,
build and run a single ffmpeg command with no timeout, log FFMPEG_ERROR
(with the first 4000 characters of output) on a non-zero exit but continue,
upload the produced `.webp` frames and then, if audio was detected, the
produced audio segments, in sorted filename order; `shutil.rmtree` runs
only if no upload raised, and the returned value is the pair of upload
counts. -/
def captureStream (cfg : Config) (w : CaptureWorld) (streamId : Nat)
    (url : String) (seconds : Option Nat) : CaptureOutcome :=
  let capSecs :=
    match seconds with
    | none => cfg.captureSeconds
    | some n => if n = 0 then cfg.captureSeconds else n
  let headerArgs := headerArgsForHls cfg
  let hasAudio := hasAudioOf w
  let tmp := "/tmp/cap_" ++ toString streamId ++ "_x"
  let framesDir := tmp ++ "/frames"
  let audioDir := tmp ++ "/audio"
  let cmd := ffmpegCmd cfg headerArgs url capSecs framesDir audioDir hasAudio
  let errLog :=
    if w.ffmpegRc = 0 then none else some (w.ffmpegRc, strTake w.ffmpegOut 4000)
  let frameNames := List.filter (fun n => strEndsWith n ".webp") (sortStr w.framesProduced)
  let framePaths := List.map (fun n => toString streamId ++ "/frames/" ++ n) frameNames
  let fRes := uploadMany w.uploadOk framePaths
  let base : CaptureOutcome :=
    { probeCalls := [{ argv := ffprobeCmd headerArgs url, timeoutSeconds := some 25 }],
      ffmpegCalls := [{ argv := cmd, timeoutSeconds := none }],
      uploads := fRes.1,
      tmpCreated := true,
      tmpRemoved := false,
      ffmpegErrorLog := errLog,
      result := Except.error "upload failed" }
  if fRes.2 then
    if hasAudio then
      let audioNames :=
        List.filter (fun n => strEndsWith n ".ogg" || strEndsWith n ".mp3" || strEndsWith n ".m4a")
          (sortStr w.audioProduced)
      let audioPaths := List.map (fun n => toString streamId ++ "/audio/" ++ n) audioNames
      let aRes := uploadMany w.uploadOk audioPaths
      if aRes.2 then
        { base with
            uploads := fRes.1 ++ aRes.1
            tmpRemoved := true
            result := Except.ok (fRes.1.length, aRes.1.length) }
      else
        { base with uploads := fRes.1 ++ aRes.1 }
    else
      { base with tmpRemoved := true, result := Except.ok (fRes.1.length, 0) }
  else base

/-- Boolean view of an `Except` result: `true` exactly on `Except.ok`. -/
def exceptOk : Except String (Nat × Nat) → Bool
  | Except.ok _ => true
  | Except.error _ => false

/-- One stored-object upload as performed by `upload_to_gcs` of app.py:
the blob name and the content type explicitly set by the code
(`blob.upload_from_filename(fpath)` passes none). -/
structure GcsUpload where
  objectName : String
  contentType : Option String
deriving Repr, DecidableEq

/-- Embeds `os.path.basename`: the characters after the last `/`. -/
def pathBasename (p : String) : String :=
  String.mk (List.foldl (fun acc c => if c = '/' then [] else acc ++ [c]) [] p.data)

/-- Embeds `upload_to_gcs` of app.py: uploads the file to
`{stream_id}/{kind}/{basename}`; no content type is passed to
`upload_from_filename`. -/
def uploadToGcs (fpath : String) (streamId : Nat) (kind : String) : GcsUpload :=
  { objectName := toString streamId ++ "/" ++ kind ++ "/" ++ pathBasename fpath,
    contentType := none }

/-- Embeds the inner `_ctype` table of `_list_signed` in app.py: audio
mime type by extension with an octet-stream fallback. -/
def ctype (n : String) : String :=
  if strEndsWith n ".ogg" then "audio/ogg"
  else if strEndsWith n ".mp3" then "audio/mpeg"
  else if strEndsWith n ".m4a" then "audio/mp4"
  else "application/octet-stream"

/-- Embeds the pure part of `_list_signed` of app.py: from the raw blob
listings of the frames and audio storage locations, keep `.webp`
respectively `.ogg`/`.mp3`/`.m4a` names, sort them, and pair each with the
response content type passed to `_sign` (`image/webp` for every frame,
`_ctype` of the name for audio). -/
def listSigned (frameListing audioListing : List String) :
    List (String × String) × List (String × String) :=
  let frames := sortStr (List.filter (fun n => strEndsWith n ".webp") frameListing)
  let audios :=
    sortStr (List.filter
      (fun n => strEndsWith n ".ogg" || strEndsWith n ".mp3" || strEndsWith n ".m4a") audioListing)
  (List.map (fun n => (n, "image/webp")) frames,
   List.map (fun n => (n, ctype n)) audios)

/-- Observable outcome of the `/process/<int:stream_id>` route: the HTTP
status (400 from the empty-URL abort, 500 when `capture_stream` raised,
302 for the redirect to the player) and the capture cycle's effects, if
one ran at all. -/
structure ProcessOutcome where
  status : Nat
  capture : Option CaptureOutcome

/-- Embeds `process_stream` of app.py: the stored URL is read first; an
empty URL aborts with 400 before any capture work; otherwise
`capture_stream` runs, an exception from it turns into a 500 abort and a
normal return into a redirect. -/
def processStream (cfg : Config) (w : CaptureWorld) (storedUrl : String)
    (streamId : Nat) : ProcessOutcome :=
  if storedUrl = "" then { status := 400, capture := none }
  else
    let o := captureStream cfg w streamId storedUrl none
    match o.result with
    | Except.error _ => { status := 500, capture := some o }
    | Except.ok _ => { status := 302, capture := some o }

/-- Subprocess invocations performed by a `/process` request: none when no
capture ran. -/
def processSubprocessCalls (p : ProcessOutcome) : List SubprocessCall :=
  match p.capture with
  | none => []
  | some o => o.probeCalls ++ o.ffmpegCalls

/-- Uploads performed by a `/process` request: none when no capture ran. -/
def processUploads (p : ProcessOutcome) : List String :=
  match p.capture with
  | none => []
  | some o => o.uploads

/-- Whether a `/process` request created a scratch directory. -/
def processTmpCreated (p : ProcessOutcome) : Bool :=
  match p.capture with
  | none => false
  | some o => o.tmpCreated

/-- The default capacity of `MemoryLogHandler` in logging_setup.py
(`capacity: int = 800`), used by the `memory_handler` singleton. -/
def memoryHandlerCapacity : Nat := 800

/-- One buffered log item, mirroring the dict appended by
`MemoryLogHandler.emit` (`ts`, `level`, `logger`, `message`). -/
structure LogItem where
  ts : Nat
  level : String
  logger : String
  message : String
deriving Repr, DecidableEq

/-- Embeds `collections.deque(maxlen=cap).append`: append on the right
and, when the capacity is exceeded, discard from the left (oldest
first). -/
def dequeAppendMax (cap : Nat) (buf : List LogItem) (x : LogItem) : List LogItem :=
  let b := buf ++ [x]
  if cap < b.length then b.drop (b.length - cap) else b

/-- Embeds a sequence of `MemoryLogHandler.emit` calls on the handler's
deque, starting from the given buffer contents. -/
def emitAll (cap : Nat) (buf : List LogItem) (xs : List LogItem) : List LogItem :=
  List.foldl (dequeAppendMax cap) buf xs

/-- Modelled from the spec: the Frame Demuxer of §4.3 is not part of the
sources under src/ (the repository revision here only contains the batch
capture path), so its scan for the two-byte end-of-image marker 0xFF 0xD9
is modelled from the spec's words. `findEOI bs` is the index of the first
byte of the first 0xFF 0xD9 pair in `bs`, if any. -/
def findEOI : List Nat → Option Nat
  | [] => none
  | [_] => none
  | a :: b :: t =>
    if a = 255 ∧ b = 217 then some 0
    else Option.map (fun j => j + 1) (findEOI (b :: t))

/-- Modelled from the spec: repeatedly scan the buffer for the end-of-image
marker; each time one is found, the bytes from the buffer start through
and including the marker are one complete frame — slice it out, remove it
from the front of the buffer, and emit it. Fuel-indexed worker; each step
removes at least two bytes. -/
def drainAux : Nat → List Nat → List (List Nat) × List Nat
  | 0, b => ([], b)
  | fuel + 1, b =>
    match findEOI b with
    | some i =>
      let r := drainAux fuel (b.drop (i + 2))
      (b.take (i + 2) :: r.1, r.2)
    | none => ([], b)

/-- Modelled from the spec: extract every complete frame from the buffer,
returning the emitted frames in order and the unterminated residue. -/
def drain (b : List Nat) : List (List Nat) × List Nat :=
  drainAux b.length b

/-- Modelled from the spec: on each incoming chunk, append it to the
buffer and extract every complete frame; the demuxer state is just the
residual buffer. -/
def feedChunk (buffer chunk : List Nat) : List (List Nat) × List Nat :=
  drain (buffer ++ chunk)

/-- Modelled from the spec: one step of the demuxer pull loop — feed the
next chunk to the current buffer and append the newly emitted frames to
the accumulated output. -/
def demuxStep (acc : List (List Nat) × List Nat) (c : List Nat) :
    List (List Nat) × List Nat :=
  let r := feedChunk acc.2 c
  (acc.1 ++ r.1, r.2)

/-- Modelled from the spec: run the demuxer over a whole sequence of
incoming chunks, accumulating the emitted frames; on upstream EOF the
residual buffer is dropped without emitting a partial frame. -/
def demuxRun (chunks : List (List Nat)) : List (List Nat) × List Nat :=
  List.foldl demuxStep ([], []) chunks

/-- Modelled from the spec: the frames emitted by the Frame Demuxer for a
chunked input, the residue at EOF being discarded. -/
def demuxFrames (chunks : List (List Nat)) : List (List Nat) :=
  (demuxRun chunks).1

/-- A well-formed JPEG image for the demuxer's purposes: its first (and
only) end-of-image marker sits exactly at its end. -/
def wellFormedJpeg (img : List Nat) : Prop :=
  findEOI img = some (img.length - 2)

instance (img : List Nat) : Decidable (wellFormedJpeg img) := by
  unfold wellFormedJpeg; infer_instance

deriving instance DecidableEq for Except

/-- Concrete world: ffmpeg produces eight frames under the fixed
`frame_%04d.webp` pattern starting at 1, every upload succeeds, no audio.
This is the storage scenario of the spec's §8 example (existing objects
frame_0001..frame_0010 in the bucket): the capture pipeline never reads a
listing, so the existing objects do not appear anywhere in its inputs. -/
def wC1 : CaptureWorld :=
  { probeResult := Except.ok false, ffmpegRc := 0, ffmpegOut := "",
    framesProduced := ["frame_0001.webp", "frame_0002.webp", "frame_0003.webp",
      "frame_0004.webp", "frame_0005.webp", "frame_0006.webp",
      "frame_0007.webp", "frame_0008.webp"],
    audioProduced := [], uploadOk := fun _ => true }

/-- Concrete world: one frame produced and its upload raises. -/
def wC2 : CaptureWorld :=
  { probeResult := Except.ok false, ffmpegRc := 0, ffmpegOut := "",
    framesProduced := ["frame_0001.webp"], audioProduced := [],
    uploadOk := fun _ => false }

/-- Concrete world: ffmpeg exits with return code 1 after producing two
frames; uploads succeed. -/
def wC3 : CaptureWorld :=
  { probeResult := Except.ok false, ffmpegRc := 1, ffmpegOut := "boom",
    framesProduced := ["frame_0001.webp", "frame_0002.webp"], audioProduced := [],
    uploadOk := fun _ => true }

/-- Concrete world: probe finds audio; extraction produces nothing. -/
def wC4 : CaptureWorld :=
  { probeResult := Except.ok true, ffmpegRc := 0, ffmpegOut := "",
    framesProduced := [], audioProduced := [], uploadOk := fun _ => true }

/-- Concrete world: the ffprobe call raises (timeout); one frame is
produced and uploaded. -/
def wC5 : CaptureWorld :=
  { probeResult := Except.error "probe timeout", ffmpegRc := 0, ffmpegOut := "",
    framesProduced := ["frame_0001.webp"], audioProduced := [],
    uploadOk := fun _ => true }

/-- Concrete world: probe finds audio, the single combined extraction run
fails with return code 1 and produces nothing. -/
def wC6 : CaptureWorld :=
  { probeResult := Except.ok true, ffmpegRc := 1, ffmpegOut := "audio map failed",
    framesProduced := [], audioProduced := [], uploadOk := fun _ => true }

/-- Concrete world for the `/process` route tests. -/
def wC9 : CaptureWorld :=
  { probeResult := Except.ok true, ffmpegRc := 0, ffmpegOut := "",
    framesProduced := ["frame_0001.webp"], audioProduced := [],
    uploadOk := fun _ => true }

theorem findEOI_le {b : List Nat} {i : Nat} (h : findEOI b = some i) :
    i + 2 ≤ b.length := by
  induction b generalizing i with
  | nil => simp [findEOI] at h
  | cons a t ih =>
    cases t with
    | nil => simp [findEOI] at h
    | cons x t' =>
      simp only [findEOI] at h
      split at h
      · simp only [Option.some.injEq] at h
        simp [List.length_cons]
        omega
      · rcases Option.map_eq_some'.mp h with ⟨j, hj, hji⟩
        have := ih hj
        simp [List.length_cons] at this ⊢
        omega

theorem findEOI_append {b : List Nat} {i : Nat} (c : List Nat)
    (h : findEOI b = some i) : findEOI (b ++ c) = some i := by
  induction b generalizing i with
  | nil => simp [findEOI] at h
  | cons a t ih =>
    cases t with
    | nil => simp [findEOI] at h
    | cons x t' =>
      rw [List.cons_append, List.cons_append]
      simp only [findEOI] at h ⊢
      split at h
      · rename_i hc
        rw [if_pos hc]
        exact h
      · rename_i hc
        rw [if_neg hc]
        rcases Option.map_eq_some'.mp h with ⟨j, hj, hji⟩
        rw [← List.cons_append, ih hj]
        simp [hji]

theorem drainAux_congr : ∀ (f f' : Nat) (b : List Nat), b.length ≤ f →
    b.length ≤ f' → drainAux f b = drainAux f' b := by
  intro f
  induction f with
  | zero =>
    intro f' b hb _
    have hbnil : b = [] := List.length_eq_zero.mp (Nat.le_zero.mp hb)
    subst hbnil
    cases f' <;> simp [drainAux, findEOI]
  | succ g ih =>
    intro f' b hb hb'
    cases f' with
    | zero =>
      have hbnil : b = [] := List.length_eq_zero.mp (Nat.le_zero.mp hb')
      subst hbnil
      simp [drainAux, findEOI]
    | succ g' =>
      simp only [drainAux]
      cases h : findEOI b with
      | none => rfl
      | some i =>
        dsimp only
        have hle := findEOI_le h
        have hdrop : (b.drop (i + 2)).length ≤ g := by
          rw [List.length_drop]; omega
        have hdrop' : (b.drop (i + 2)).length ≤ g' := by
          rw [List.length_drop]; omega
        rw [ih g' (b.drop (i + 2)) hdrop hdrop']

theorem drain_none {b : List Nat} (h : findEOI b = none) : drain b = ([], b) := by
  cases b with
  | nil => rfl
  | cons x t =>
    show drainAux (x :: t).length (x :: t) = ([], x :: t)
    rw [List.length_cons]
    simp only [drainAux]
    rw [h]

theorem drain_some {b : List Nat} {i : Nat} (h : findEOI b = some i) :
    drain b = (b.take (i + 2) :: (drain (b.drop (i + 2))).1,
      (drain (b.drop (i + 2))).2) := by
  cases b with
  | nil => simp [findEOI] at h
  | cons x t =>
    have hle := findEOI_le h
    show drainAux (x :: t).length (x :: t) = _
    rw [List.length_cons]
    simp only [drainAux]
    rw [h]
    dsimp only
    have hcongr : drainAux t.length ((x :: t).drop (i + 2)) =
        drainAux ((x :: t).drop (i + 2)).length ((x :: t).drop (i + 2)) := by
      apply drainAux_congr
      · rw [List.length_drop]
        simp only [List.length_cons] at hle ⊢
        omega
      · exact Nat.le_refl _
    rw [hcongr]
    rfl

theorem drain_residual_aux : ∀ (n : Nat) (b : List Nat), b.length ≤ n →
    findEOI (drain b).2 = none := by
  intro n
  induction n with
  | zero =>
    intro b hb
    have hbnil : b = [] := List.length_eq_zero.mp (Nat.le_zero.mp hb)
    subst hbnil
    rfl
  | succ m ih =>
    intro b hb
    cases h : findEOI b with
    | none => rw [drain_none h]; exact h
    | some i =>
      rw [drain_some h]
      apply ih
      rw [List.length_drop]
      have := findEOI_le h
      omega

theorem drain_residual (b : List Nat) : findEOI (drain b).2 = none :=
  drain_residual_aux b.length b (Nat.le_refl _)

theorem drain_append_aux : ∀ (n : Nat) (b c : List Nat), b.length ≤ n →
    drain (b ++ c) = ((drain b).1 ++ (drain ((drain b).2 ++ c)).1,
      (drain ((drain b).2 ++ c)).2) := by
  intro n
  induction n with
  | zero =>
    intro b c hb
    have hbnil : b = [] := List.length_eq_zero.mp (Nat.le_zero.mp hb)
    subst hbnil
    rw [show drain ([] : List Nat) = ([], []) from rfl]
    simp
  | succ m ih =>
    intro b c hb
    cases h : findEOI b with
    | none =>
      rw [drain_none h]
      simp
    | some i =>
      have hle := findEOI_le h
      have h2 : findEOI (b ++ c) = some i := findEOI_append c h
      rw [drain_some h, drain_some h2]
      rw [List.take_append_of_le_length hle, List.drop_append_of_le_length hle]
      rw [ih (b.drop (i + 2)) c (by rw [List.length_drop]; omega)]
      simp [List.cons_append]

theorem drain_append (b c : List Nat) :
    drain (b ++ c) = ((drain b).1 ++ (drain ((drain b).2 ++ c)).1,
      (drain ((drain b).2 ++ c)).2) :=
  drain_append_aux b.length b c (Nat.le_refl _)

theorem drain_flatten : ∀ (imgs : List (List Nat)),
    (∀ img ∈ imgs, wellFormedJpeg img) → drain imgs.flatten = (imgs, []) := by
  intro imgs
  induction imgs with
  | nil => intro _; rfl
  | cons img rest ih =>
    intro hwf
    have hw : wellFormedJpeg img := hwf img (by simp)
    have hrest : ∀ i ∈ rest, wellFormedJpeg i := fun i hi => hwf i (by simp [hi])
    unfold wellFormedJpeg at hw
    have hlen : 2 ≤ img.length := by have := findEOI_le hw; omega
    rw [List.flatten_cons]
    have h2 : findEOI (img ++ rest.flatten) = some (img.length - 2) :=
      findEOI_append _ hw
    rw [drain_some h2]
    have htk : img.length - 2 + 2 = img.length := by omega
    rw [htk, List.take_left, List.drop_left, ih hrest]

theorem demuxRun_gen : ∀ (chunks : List (List Nat)) (acc : List (List Nat))
    (buf : List Nat), findEOI buf = none →
    List.foldl demuxStep (acc, buf) chunks =
      (acc ++ (drain (buf ++ chunks.flatten)).1,
        (drain (buf ++ chunks.flatten)).2) := by
  intro chunks
  induction chunks with
  | nil =>
    intro acc buf hb
    simp only [List.foldl_nil, List.flatten_nil, List.append_nil]
    rw [drain_none hb]
    simp
  | cons c cs ih =>
    intro acc buf hb
    rw [List.foldl_cons]
    have hstep : demuxStep (acc, buf) c =
        (acc ++ (drain (buf ++ c)).1, (drain (buf ++ c)).2) := rfl
    rw [hstep, ih _ _ (drain_residual _), List.flatten_cons,
      ← List.append_assoc buf c cs.flatten, drain_append (buf ++ c) cs.flatten]
    simp [List.append_assoc]

/-- C7: for every raw byte sequence consisting of N concatenated
well-formed JPEG images, and for every way of splitting that sequence into
incoming byte chunks, the Frame Demuxer emits exactly N frames, each
byte-identical to the corresponding source image, independent of where
chunk boundaries fall relative to image boundaries. -/
theorem c7_demux_chunk_invariance (imgs chunks : List (List Nat))
    (hwf : ∀ img ∈ imgs, wellFormedJpeg img)
    (hsplit : chunks.flatten = imgs.flatten) :
    demuxFrames chunks = imgs := by
  unfold demuxFrames demuxRun
  rw [demuxRun_gen chunks [] [] rfl]
  simp only [List.nil_append]
  rw [hsplit, drain_flatten imgs hwf]

/-- Witness for C7 at a concrete input: two well-formed images, cut into
three chunks whose boundaries do not respect image boundaries. -/
theorem c7_demux_chunk_invariance_witness :
    demuxFrames [[255], [217, 1], [255, 217]] = [[255, 217], [1, 255, 217]] :=
  c7_demux_chunk_invariance [[255, 217], [1, 255, 217]]
    [[255], [217, 1], [255, 217]] (by decide) (by decide)

theorem dequeAppendMax_eq {cap : Nat} (buf : List LogItem) (x : LogItem)
    (h : buf.length ≤ cap) :
    dequeAppendMax cap buf x =
      (buf ++ [x]).drop ((buf ++ [x]).length - cap) := by
  unfold dequeAppendMax
  dsimp only
  split
  · rfl
  · rename_i hc
    have : (buf ++ [x]).length - cap = 0 := by omega
    rw [this, List.drop_zero]

theorem dequeAppendMax_le {cap : Nat} (buf : List LogItem) (x : LogItem)
    (h : buf.length ≤ cap) : (dequeAppendMax cap buf x).length ≤ cap := by
  unfold dequeAppendMax
  dsimp only
  split
  · rename_i hc
    rw [List.length_drop]
    omega
  · rename_i hc
    omega

theorem emitAll_eq : ∀ (xs buf : List LogItem) (cap : Nat), buf.length ≤ cap →
    emitAll cap buf xs = (buf ++ xs).drop ((buf ++ xs).length - cap) ∧
      (emitAll cap buf xs).length ≤ cap := by
  intro xs
  induction xs with
  | nil =>
    intro buf cap hb
    unfold emitAll
    simp only [List.foldl_nil, List.append_nil]
    constructor
    · have : buf.length - cap = 0 := by omega
      rw [this, List.drop_zero]
    · exact hb
  | cons x xs ih =>
    intro buf cap hb
    unfold emitAll at ih ⊢
    rw [List.foldl_cons]
    rcases ih (dequeAppendMax cap buf x) cap (dequeAppendMax_le buf x hb) with ⟨h1, h2⟩
    have hd : (buf ++ [x]).length - cap ≤ (buf ++ [x]).length := Nat.sub_le _ _
    have hshape : (buf ++ [x]) ++ xs = buf ++ x :: xs := by
      rw [List.append_assoc]; rfl
    constructor
    · rw [h1, dequeAppendMax_eq buf x hb, ← List.drop_append_of_le_length hd,
        List.drop_drop, hshape]
      congr 1
      have e1 : (buf ++ [x]).length = buf.length + 1 := by
        rw [List.length_append, List.length_singleton]
      have e2 : (buf ++ x :: xs).length = buf.length + 1 + xs.length := by
        rw [List.length_append, List.length_cons]; omega
      rw [List.length_drop, e1, e2]
      omega
    · exact h2

/-- C10: the in-memory log ring buffer never exceeds its fixed capacity of
800 records: after any sequence of emit operations starting from the empty
buffer it holds at most 800 entries, and its contents are exactly the most
recent emits in order (the oldest entries having been discarded first). -/
theorem c10_ring_buffer_capacity (xs : List LogItem) :
    (emitAll memoryHandlerCapacity [] xs).length ≤ 800 ∧
      emitAll memoryHandlerCapacity [] xs = xs.drop (xs.length - 800) := by
  rcases emitAll_eq xs [] memoryHandlerCapacity (by simp [memoryHandlerCapacity]) with
    ⟨h1, h2⟩
  rw [List.nil_append] at h1
  exact ⟨h2, h1⟩

/-- C9: for every stream id whose stored source URL is empty, a request to
the `/process/<stream_id>` endpoint fails with HTTP status 400 and performs
no capture work: no subprocess is spawned, no scratch directory is
created, and no asset is uploaded. -/
theorem c9_empty_url_rejected (cfg : Config) (w : CaptureWorld)
    (storedUrl : String) (streamId : Nat) (h : storedUrl = "") :
    (processStream cfg w storedUrl streamId).status = 400 ∧
      processSubprocessCalls (processStream cfg w storedUrl streamId) = [] ∧
      processUploads (processStream cfg w storedUrl streamId) = [] ∧
      processTmpCreated (processStream cfg w storedUrl streamId) = false := by
  subst h
  simp [processStream, processSubprocessCalls, processUploads, processTmpCreated]

/-- Witness for C9 at a concrete world and stream id. -/
theorem c9_empty_url_rejected_witness :
    (processStream cfgDefault wC9 "" 1).status = 400 ∧
      processSubprocessCalls (processStream cfgDefault wC9 "" 1) = [] ∧
      processUploads (processStream cfgDefault wC9 "" 1) = [] ∧
      processTmpCreated (processStream cfgDefault wC9 "" 1) = false :=
  c9_empty_url_rejected cfgDefault wC9 "" 1 rfl

/-- C5: for every capture cycle in which the audio probe fails, times out,
or raises, the cycle treats the source as having no audio and still
completes identically to a no-audio cycle: the probe failure never
propagates, and any normally returned result reports zero audio
segments. -/
theorem c5_probe_failure_degrades (cfg : Config) (w : CaptureWorld)
    (streamId : Nat) (url : String) (seconds : Option Nat) (e : String)
    (h : w.probeResult = Except.error e) :
    captureStream cfg w streamId url seconds =
      captureStream cfg { w with probeResult := Except.ok false }
        streamId url seconds ∧
      ∀ n a, (captureStream cfg w streamId url seconds).result =
        Except.ok (n, a) → a = 0 := by
  constructor
  · simp [captureStream, hasAudioOf, h]
  · intro n a hres
    simp only [captureStream, hasAudioOf, h, Bool.false_eq_true, if_false] at hres
    split at hres
    · simp only [Except.ok.injEq, Prod.mk.injEq] at hres
      exact hres.2.symm
    · exact Except.noConfusion hres

/-- Witness for C5: a concrete world where the probe raises; the cycle
equals the no-audio cycle and, concretely, returns one frame and zero
audio segments. -/
theorem c5_probe_failure_degrades_witness :
    captureStream cfgDefault wC5 1 "u" none =
      captureStream cfgDefault { wC5 with probeResult := Except.ok false }
        1 "u" none ∧
      (captureStream cfgDefault wC5 1 "u" none).result = Except.ok (1, 0) :=
  ⟨(c5_probe_failure_degrades cfgDefault wC5 1 "u" none "probe timeout" rfl).1,
    by decide⟩

/-- C2 (amended): the scratch directory is removed exactly when no step
after its creation raises — `shutil.rmtree` is not in a `finally` block,
so the cycle ends with the directory removed iff it returns normally; in
particular a raising upload leaves the directory behind. -/
theorem c2_cleanup_iff_normal_return (cfg : Config) (w : CaptureWorld)
    (streamId : Nat) (url : String) (seconds : Option Nat) :
    (captureStream cfg w streamId url seconds).tmpRemoved =
      exceptOk (captureStream cfg w streamId url seconds).result := by
  unfold captureStream
  dsimp only
  split
  · split
    · split
      · rfl
      · rfl
    · rfl
  · rfl

/-- Counterexample to C2 as stated: in a cycle whose only upload raises,
the scratch directory was created but is never removed, and the exception
propagates. -/
theorem c2_counterexample :
    (captureStream cfgDefault wC2 1 "u" none).tmpCreated = true ∧
      (captureStream cfgDefault wC2 1 "u" none).tmpRemoved = false ∧
      exceptOk (captureStream cfgDefault wC2 1 "u" none).result = false := by
  decide

theorem captureStream_ffmpegCalls (cfg : Config) (w : CaptureWorld)
    (streamId : Nat) (url : String) (seconds : Option Nat) :
    (captureStream cfg w streamId url seconds).ffmpegCalls =
      [{ argv := ffmpegCmd cfg (headerArgsForHls cfg) url
          (match seconds with
           | none => cfg.captureSeconds
           | some n => if n = 0 then cfg.captureSeconds else n)
          ("/tmp/cap_" ++ toString streamId ++ "_x" ++ "/frames")
          ("/tmp/cap_" ++ toString streamId ++ "_x" ++ "/audio")
          (hasAudioOf w), timeoutSeconds := none }] := by
  unfold captureStream
  dsimp only
  split
  · split
    · split
      · rfl
      · rfl
    · rfl
  · rfl

theorem captureStream_probeCalls (cfg : Config) (w : CaptureWorld)
    (streamId : Nat) (url : String) (seconds : Option Nat) :
    (captureStream cfg w streamId url seconds).probeCalls =
      [{ argv := ffprobeCmd (headerArgsForHls cfg) url,
         timeoutSeconds := some 25 }] := by
  unfold captureStream
  dsimp only
  split
  · split
    · split
      · rfl
      · rfl
    · rfl
  · rfl

theorem captureStream_errorLog (cfg : Config) (w : CaptureWorld)
    (streamId : Nat) (url : String) (seconds : Option Nat) :
    (captureStream cfg w streamId url seconds).ffmpegErrorLog =
      (if w.ffmpegRc = 0 then none
       else some (w.ffmpegRc, strTake w.ffmpegOut 4000)) := by
  unfold captureStream
  dsimp only
  split
  · split
    · split
      · rfl
      · rfl
    · rfl
  · rfl

theorem startNumber_infix_ffmpegCmd (cfg : Config) (headerArgs : List String)
    (url : String) (capSecs : Nat) (framesDir audioDir : String)
    (hasAudio : Bool) :
    List.IsInfix ["-start_number", "1"]
      (ffmpegCmd cfg headerArgs url capSecs framesDir audioDir hasAudio) := by
  cases hasAudio with
  | false =>
    refine ⟨["ffmpeg", "-nostdin", "-hide_banner", "-loglevel", "warning"] ++
      headerArgs ++ ["-i", url, "-t", toString capSecs, "-map", "0:v:0", "-vf",
        "fps=" ++ toString cfg.fps ++ ",scale=" ++ cfg.frameScale],
      ["-f", "image2", framesDir ++ "/frame_%04d.webp"], ?_⟩
    simp [ffmpegCmd]
  | true =>
    refine ⟨["ffmpeg", "-nostdin", "-hide_banner", "-loglevel", "warning"] ++
      headerArgs ++ ["-i", url, "-t", toString capSecs, "-map", "0:v:0", "-vf",
        "fps=" ++ toString cfg.fps ++ ",scale=" ++ cfg.frameScale],
      ["-f", "image2", framesDir ++ "/frame_%04d.webp", "-map", "0:a:0", "-c:a",
        cfg.audioCodec, "-b:a", cfg.audioBitrate, "-ar", "48000", "-ac", "1",
        "-f", "segment", "-segment_time", toString cfg.audioSeg,
        "-reset_timestamps", "1", audioDir ++ "/chunk_%03d.ogg"], ?_⟩
    simp [ffmpegCmd]

/-- C1 (amended): every capture cycle numbers its frame output from 1
unconditionally — the single ffmpeg command always carries
`-start_number 1`, and the cycle takes no listing of existing object names
as input at all — so repeated captures reuse sequence numbers and
overwrite the existing objects carrying the same names rather than
appending after the maximum. -/
theorem c1_start_number_always_one (cfg : Config) (headerArgs : List String)
    (url : String) (capSecs : Nat) (framesDir audioDir : String)
    (hasAudio : Bool) (w : CaptureWorld) (streamId : Nat)
    (seconds : Option Nat) :
    List.IsInfix ["-start_number", "1"]
      (ffmpegCmd cfg headerArgs url capSecs framesDir audioDir hasAudio) ∧
    (captureStream cfg w streamId url seconds).ffmpegCalls.map
      (fun c => decide (List.IsInfix ["-start_number", "1"] c.argv)) = [true] := by
  constructor
  · exact startNumber_infix_ffmpegCmd cfg headerArgs url capSecs framesDir
      audioDir hasAudio
  · rw [captureStream_ffmpegCalls]
    simp only [List.map_cons, List.map_nil, List.cons.injEq, and_true,
      decide_eq_true_eq]
    exact startNumber_infix_ffmpegCmd cfg (headerArgsForHls cfg) url _ _ _ _

/-- Counterexample to C1 as stated: in the spec's §8 scenario (existing
objects frame_0001..frame_0010) an 8-frame capture cycle must upload
exactly frames 0011-0018; instead the cycle uploads object names
frame_0001..frame_0008 — the very names of the existing objects, which it
thereby overwrites — and never uploads frame_0011. -/
theorem c1_counterexample :
    (captureStream cfgDefault wC1 1 "http://example/stream.m3u8" none).uploads =
      ["1/frames/frame_0001.webp", "1/frames/frame_0002.webp",
       "1/frames/frame_0003.webp", "1/frames/frame_0004.webp",
       "1/frames/frame_0005.webp", "1/frames/frame_0006.webp",
       "1/frames/frame_0007.webp", "1/frames/frame_0008.webp"] ∧
    List.contains
      ((captureStream cfgDefault wC1 1 "http://example/stream.m3u8" none).uploads)
      "1/frames/frame_0011.webp" = false := by
  decide

/-- C3 (amended): a non-zero exit of the extraction subprocess is not
fatal for the cycle: the failure is logged (return code plus the first
4000 characters of captured output), and the cycle's uploads, returned
result and cleanup are exactly those of a zero-exit cycle — it proceeds to
upload whatever files were produced and reports their counts as
success. -/
theorem c3_nonzero_exit_not_fatal (cfg : Config) (w : CaptureWorld)
    (streamId : Nat) (url : String) (seconds : Option Nat) :
    (captureStream cfg w streamId url seconds).ffmpegErrorLog =
      (if w.ffmpegRc = 0 then none
       else some (w.ffmpegRc, strTake w.ffmpegOut 4000)) ∧
    (captureStream cfg w streamId url seconds).uploads =
      (captureStream cfg { w with ffmpegRc := 0, ffmpegOut := "" }
        streamId url seconds).uploads ∧
    (captureStream cfg w streamId url seconds).result =
      (captureStream cfg { w with ffmpegRc := 0, ffmpegOut := "" }
        streamId url seconds).result ∧
    (captureStream cfg w streamId url seconds).tmpRemoved =
      (captureStream cfg { w with ffmpegRc := 0, ffmpegOut := "" }
        streamId url seconds).tmpRemoved := by
  refine ⟨captureStream_errorLog cfg w streamId url seconds, ?_, ?_, ?_⟩ <;>
  · unfold captureStream hasAudioOf
    dsimp only
    split
    · split
      · split
        · rfl
        · rfl
      · rfl
    · rfl

/-- Counterexample to C3 as stated: a cycle whose extraction run exits
with return code 1 after producing two frames does not fail — it uploads
both frames and returns the success counts (2, 0), with the scratch
directory cleaned. -/
theorem c3_counterexample :
    (captureStream cfgDefault wC3 1 "u" none).result = Except.ok (2, 0) ∧
      (captureStream cfgDefault wC3 1 "u" none).uploads =
        ["1/frames/frame_0001.webp", "1/frames/frame_0002.webp"] ∧
      (captureStream cfgDefault wC3 1 "u" none).ffmpegErrorLog =
        some (1, "boom") := by
  decide

/-- C4 (amended): the ffprobe audio probe always runs with a finite
25-second timeout, but the ffmpeg extraction run is always invoked with no
timeout at all, so the extraction subprocess can block indefinitely. -/
theorem c4_ffmpeg_has_no_timeout (cfg : Config) (w : CaptureWorld)
    (streamId : Nat) (url : String) (seconds : Option Nat) :
    (captureStream cfg w streamId url seconds).probeCalls.map
      (fun c => c.timeoutSeconds) = [some 25] ∧
    (captureStream cfg w streamId url seconds).ffmpegCalls.map
      (fun c => c.timeoutSeconds) = [none] := by
  rw [captureStream_probeCalls, captureStream_ffmpegCalls]
  constructor <;> rfl

/-- Counterexample to C4 as stated: a concrete capture cycle performs an
ffmpeg subprocess invocation whose timeout is `none` — not a finite
timeout. -/
theorem c4_counterexample :
    (captureStream cfgDefault wC4 1 "u" none).ffmpegCalls.map
      (fun c => c.timeoutSeconds) = [none] := by
  decide

/-- C6 (amended): audio is extracted in the same single ffmpeg invocation
as the frames — the cycle makes exactly one ffmpeg call, and the command
with audio differs from the frames-only command exactly by the appended
explicit-index (`-map 0:a:0`) audio output part; no retry with an
unqualified audio form exists, and no extraction failure (video or audio)
aborts the cycle. -/
theorem c6_single_combined_invocation (cfg : Config) (headerArgs : List String)
    (url : String) (capSecs : Nat) (framesDir audioDir : String)
    (w : CaptureWorld) (streamId : Nat) (seconds : Option Nat) :
    (captureStream cfg w streamId url seconds).ffmpegCalls.length = 1 ∧
    ffmpegCmd cfg headerArgs url capSecs framesDir audioDir true =
      ffmpegCmd cfg headerArgs url capSecs framesDir audioDir false ++
        ["-map", "0:a:0", "-c:a", cfg.audioCodec, "-b:a", cfg.audioBitrate,
         "-ar", "48000", "-ac", "1", "-f", "segment", "-segment_time",
         toString cfg.audioSeg, "-reset_timestamps", "1",
         audioDir ++ "/chunk_%03d.ogg"] := by
  constructor
  · rw [captureStream_ffmpegCalls]; rfl
  · simp [ffmpegCmd]

/-- Counterexample to C6 as stated: probe reports audio, the combined
extraction run fails (return code 1) — the claim demands a second,
unqualified retry invocation and a fatal cycle on video failure, but the
cycle performs exactly one ffmpeg invocation (carrying the explicit
`0:a:0` selector) and still reports success. -/
theorem c6_counterexample :
    (captureStream cfgDefault wC6 1 "u" none).ffmpegCalls.length = 1 ∧
      (captureStream cfgDefault wC6 1 "u" none).ffmpegCalls.map
        (fun c => List.contains c.argv "0:a:0") = [true] ∧
      exceptOk (captureStream cfgDefault wC6 1 "u" none).result = true := by
  decide

/-- C8 (amended): the uploader sets no content type at all
(`upload_from_filename` is called without one); the fixed extension table
is instead applied when signing read URLs — every listed frame is signed
with response content type image/webp, and every listed audio object with
the table value for its name (.ogg→audio/ogg, .mp3→audio/mpeg,
.m4a→audio/mp4, anything else→application/octet-stream). -/
theorem c8_content_type_at_signing (fpath : String) (sid : Nat)
    (kind n : String) (fl al : List String) :
    (uploadToGcs fpath sid kind).contentType = none ∧
    (strEndsWith n ".ogg" = true → ctype n = "audio/ogg") ∧
    (strEndsWith n ".ogg" = false → strEndsWith n ".mp3" = true →
      ctype n = "audio/mpeg") ∧
    (strEndsWith n ".ogg" = false → strEndsWith n ".mp3" = false →
      strEndsWith n ".m4a" = true → ctype n = "audio/mp4") ∧
    (strEndsWith n ".ogg" = false → strEndsWith n ".mp3" = false →
      strEndsWith n ".m4a" = false → ctype n = "application/octet-stream") ∧
    (listSigned fl al).1.map (fun p => p.2) =
      List.replicate ((listSigned fl al).1).length "image/webp" ∧
    (listSigned fl al).2.map (fun p => p.2) =
      List.map ctype ((listSigned fl al).2.map (fun p => p.1)) := by
  refine ⟨rfl, ?_, ?_, ?_, ?_, ?_, ?_⟩
  · intro h1; simp [ctype, h1]
  · intro h1 h2; simp [ctype, h1, h2]
  · intro h1 h2 h3; simp [ctype, h1, h2, h3]
  · intro h1 h2 h3; simp [ctype, h1, h2, h3]
  · simp [listSigned, List.map_map, List.length_map, Function.comp_def,
      List.map_const]
  · simp [listSigned, List.map_map, Function.comp_def]

/-- Witness for C8 (amended) at concrete names: an uploaded frame carries
no content type, and the signing-time table maps each audio extension as
stated. -/
theorem c8_content_type_at_signing_witness :
    (uploadToGcs "/tmp/cap_1_x/frames/frame_0001.webp" 1 "frames").contentType
        = none ∧
      ctype "1/audio/chunk_000.ogg" = "audio/ogg" ∧
      ctype "1/audio/chunk_000.mp3" = "audio/mpeg" ∧
      ctype "1/audio/chunk_000.m4a" = "audio/mp4" ∧
      ctype "1/audio/chunk_000.txt" = "application/octet-stream" :=
  ⟨(c8_content_type_at_signing "/tmp/cap_1_x/frames/frame_0001.webp" 1 "frames"
      "x" [] []).1,
   (c8_content_type_at_signing "f" 1 "frames" "1/audio/chunk_000.ogg" [] []).2.1
     (by decide),
   (c8_content_type_at_signing "f" 1 "frames" "1/audio/chunk_000.mp3" [] []).2.2.1
     (by decide) (by decide),
   (c8_content_type_at_signing "f" 1 "frames" "1/audio/chunk_000.m4a"
     [] []).2.2.2.1 (by decide) (by decide) (by decide),
   (c8_content_type_at_signing "f" 1 "frames" "1/audio/chunk_000.txt"
     [] []).2.2.2.2.1 (by decide) (by decide) (by decide)⟩

/-- Counterexample to C8 as stated: the upload of a `.webp` frame file
sets no content type on the stored object (the claim requires the
image/webp-equivalent type to be set by the uploader). -/
theorem c8_counterexample :
    (uploadToGcs "/tmp/cap_7_x/frames/frame_0002.webp" 7 "frames").contentType
        = none ∧
      (uploadToGcs "/tmp/cap_7_x/frames/frame_0002.webp" 7 "frames").objectName
        = "7/frames/frame_0002.webp" := by
  decide

end TvStreamer
